import Mathlib

/-!
Shallow embedding of the three SpiNNaker circuit-simulation kernels of the
rig repository (gate.c, stimulus.c, probe.c, tutorial part 05).

Modelling conventions:
* `uint32_t` values are `Nat` with an explicit `% 2 ^ 32` wherever C
  truncation could matter; `uchar` (byte) values carry the invariant `< 2 ^ 8`.
* Byte memory (the `stimulus[]` and `recording[]` flexible array members) is a
  function `Nat → Nat` from byte index to byte value.
* A tick handler returns `none` exactly where the C code calls `spin1_exit`
  (requesting termination) and `some effect` where it publishes a multicast
  packet (a `key × payload` pair) or rewrites the recording memory.
* The Spin1 scheduler supplies ticks 1, 2, 3, ...; a run is modelled by the
  fuel-bounded iteration `runEmit` / `probeRun` starting at tick 1, which
  stops at the first `none` (the `spin1_exit` call).
-/

/-- The modulus of 32-bit unsigned arithmetic. -/
def U32 : Nat := 2 ^ 32

/-- The C statement `ticks--` on a `uint32_t` operand (wraps at zero). -/
def dec32 (ticks : Nat) : Nat := (ticks + (U32 - 1)) % U32

/-- Configuration block of gate.c (`config_t`). -/
structure GateConfig where
  sim_length : Nat
  input_a_key : Nat
  input_b_key : Nat
  output_key : Nat
  lut : Nat
deriving DecidableEq

/-- The gate's mutable globals `last_input_a` / `last_input_b`. -/
structure GateState where
  last_input_a : Nat
  last_input_b : Nat
deriving DecidableEq

/-- gate.c `on_tick`: exit once `ticks > sim_length`, otherwise publish
bit `last_input_a | (last_input_b << 1)` of the lookup table on
`output_key`. -/
def gate_on_tick (config : GateConfig) (s : GateState) (ticks : Nat) :
    Option (Nat × Nat) :=
  if ticks > config.sim_length then
    none
  else
    let lut_bit_number := s.last_input_a ||| ((s.last_input_b <<< 1) % U32)
    let output := (config.lut >>> lut_bit_number) &&& 1
    some (config.output_key, output)

/-- gate.c `on_mc_packet`: two independent (non-exclusive) key comparisons
updating the stored inputs. -/
def gate_on_mc_packet (config : GateConfig) (s : GateState)
    (key payload : Nat) : GateState :=
  let s1 := if key = config.input_a_key then { s with last_input_a := payload } else s
  if key = config.input_b_key then { s1 with last_input_b := payload } else s1

/-- Configuration block of stimulus.c (`config_t`), with the flexible byte
array `stimulus[]` as a byte-indexed memory. -/
structure StimulusConfig where
  sim_length : Nat
  output_key : Nat
  stimulus : Nat → Nat

/-- stimulus.c `on_tick`: decrement the 1-based tick, exit once the 0-based
tick reaches `sim_length`, otherwise publish bit `t % 8` of byte `t / 8`. -/
def stimulus_on_tick (config : StimulusConfig) (ticks : Nat) :
    Option (Nat × Nat) :=
  let t := dec32 ticks
  if t ≥ config.sim_length then
    none
  else
    some (config.output_key, (config.stimulus (t / 8) >>> (t % 8)) &&& 1)

/-- Pointwise update of byte memory (an array store `mem[i] = v`). -/
def setByte (mem : Nat → Nat) (i v : Nat) : Nat → Nat :=
  fun j => if j = i then v else mem j

/-- The recording store of probe.c `on_tick` at 0-based tick `t`:
`recording[t/8] |= last_input << (t % 8)` with the shift performed in
`uint32_t` and the assignment truncating to `uchar`. -/
def probeWrite (last_input : Nat) (recording : Nat → Nat) (t : Nat) :
    Nat → Nat :=
  setByte recording (t / 8)
    ((recording (t / 8) ||| ((last_input <<< (t % 8)) % U32)) % 2 ^ 8)

/-- probe.c `on_tick`: decrement the 1-based tick, exit once the 0-based tick
reaches `sim_length`, otherwise (after the 700 us settle delay) OR the most
recently received value into the recording. -/
def probe_on_tick (sim_length last_input : Nat) (recording : Nat → Nat)
    (ticks : Nat) : Option (Nat → Nat) :=
  let t := dec32 ticks
  if t ≥ sim_length then
    none
  else
    some (probeWrite last_input recording t)

/-- probe.c `on_mc_packet`: overwrite `last_input` when the key matches. -/
def probe_on_mc_packet (input_key last_input key payload : Nat) : Nat :=
  if key = input_key then payload else last_input

/-- probe.c `c_main` zero-fill loop: `for (i = 0; i < n; i++) recording[i] = 0`. -/
def zeroFill (recording : Nat → Nat) : Nat → (Nat → Nat)
  | 0 => recording
  | n + 1 => setByte (zeroFill recording n) n 0

/-- Fuel-bounded scheduler loop for an emitting handler: fire ticks
`tick, tick+1, ...` collecting each published packet, stopping at the first
`none` (the handler's `spin1_exit`). -/
def runEmit {α : Type} (handler : Nat → Option α) (tick fuel : Nat) : List α :=
  match fuel with
  | 0 => []
  | fuel' + 1 =>
    match handler tick with
    | none => []
    | some a => a :: runEmit handler (tick + 1) fuel'

/-- Fuel-bounded scheduler loop for the probe: `lastIn tick` is the value of
`last_input` when tick `tick` fires; returns the final recording memory and
the number of ticks that performed a recording write. -/
def probeRun (sim_length : Nat) (lastIn : Nat → Nat) (tick fuel : Nat)
    (recording : Nat → Nat) : (Nat → Nat) × Nat :=
  match fuel with
  | 0 => (recording, 0)
  | fuel' + 1 =>
    match probe_on_tick sim_length (lastIn tick) recording tick with
    | none => (recording, 0)
    | some recording' =>
      let p := probeRun sim_length lastIn (tick + 1) fuel' recording'
      (p.1, p.2 + 1)

/-- Bit `t % 8` of byte `t / 8`: the recording bit belonging to 0-based tick
`t` under the LSB-first packing of probe.c. -/
def bitAt (recording : Nat → Nat) (t : Nat) : Bool :=
  (recording (t / 8)).testBit (t % 8)

/-- Deliver a list of multicast packets to a gate, in order. -/
def deliverAll (config : GateConfig) (s : GateState)
    (evs : List (Nat × Nat)) : GateState :=
  evs.foldl (fun s' e => gate_on_mc_packet config s' e.1 e.2) s

/-- Gate state seen by tick `t`'s handler when `evs τ` is delivered before
tick `τ` fires, starting from the zero-initialised globals. -/
def stateAtTick (config : GateConfig) (evs : Nat → List (Nat × Nat)) :
    Nat → GateState
  | 0 => ⟨0, 0⟩
  | t + 1 => deliverAll config (stateAtTick config evs t) (evs (t + 1))

/-- The event schedule of the AND-gate scenario: an `input_a_key` packet with
payload 1 at tick 3 and an `input_b_key` packet with payload 1 at tick 5. -/
def andScenarioEvents (input_a_key input_b_key : Nat) (t : Nat) :
    List (Nat × Nat) :=
  if t = 3 then [(input_a_key, 1)]
  else if t = 5 then [(input_b_key, 1)]
  else []

/-- C1: on any tick not exceeding `sim_length`, a gate whose stored inputs
are bits and whose lookup table is 4 bits publishes exactly
`(lut >>> (a ||| (b <<< 1))) &&& 1` on `output_key`. -/
theorem gate_lut_output (config : GateConfig) (a b ticks : Nat)
    (ha : a ≤ 1) (hb : b ≤ 1) (hlut : config.lut < 16)
    (ht : ticks ≤ config.sim_length) :
    gate_on_tick config ⟨a, b⟩ ticks =
      some (config.output_key, (config.lut >>> (a ||| (b <<< 1))) &&& 1) := by
  have hmod : (b <<< 1) % U32 = b <<< 1 := by
    apply Nat.mod_eq_of_lt
    rw [Nat.shiftLeft_eq]
    have : (2 : Nat) ^ 1 = 2 := by norm_num
    rw [this]
    have : b * 2 ≤ 2 := by omega
    calc b * 2 ≤ 2 := this
      _ < U32 := by norm_num [U32]
  unfold gate_on_tick
  rw [if_neg (by omega)]
  rw [hmod]

/-- Witness for C1 at `a = 1`, `b = 1`, `lut = 8`, tick 4 of a 10-tick run. -/
theorem gate_lut_output_witness :
    gate_on_tick ⟨10, 1, 2, 3, 8⟩ ⟨1, 1⟩ 4 =
      some (3, ((8 : Nat) >>> (1 ||| (1 <<< 1))) &&& 1) :=
  gate_lut_output ⟨10, 1, 2, 3, 8⟩ 1 1 4 (by decide) (by decide) (by decide)
    (by decide)

/-- A 1-based tick in the `uint32_t` counter range decrements to its 0-based
predecessor. -/
theorem dec32_eq (ticks : Nat) (h1 : 1 ≤ ticks) (h2 : ticks ≤ U32) :
    dec32 ticks = ticks - 1 := by
  have hU : 1 ≤ U32 := by norm_num [U32]
  have h3 : ticks + (U32 - 1) = (ticks - 1) + U32 := by omega
  unfold dec32
  rw [h3, Nat.add_mod_right]
  exact Nat.mod_eq_of_lt (by omega)

/-- C3: at each 0-based tick `t < sim_length` (1-based tick `t + 1`), the
stimulus node publishes bit `(stimulus[t/8] >>> (t % 8)) &&& 1` on
`output_key`: LSB-first within each byte, sequential across bytes. -/
theorem stimulus_bit_extraction (config : StimulusConfig) (t : Nat)
    (hL : config.sim_length < U32) (ht : t < config.sim_length) :
    stimulus_on_tick config (t + 1) =
      some (config.output_key, (config.stimulus (t / 8) >>> (t % 8)) &&& 1) := by
  unfold stimulus_on_tick
  rw [dec32_eq (t + 1) (by omega) (by omega)]
  simp only [Nat.add_sub_cancel]
  rw [if_neg (by omega)]

/-- Witness for C3 at `t = 9` on the byte array `A5 42 ...`: byte 1, bit 1. -/
theorem stimulus_bit_extraction_witness :
    stimulus_on_tick ⟨12, 7, fun i => if i = 0 then 165 else 66⟩ (9 + 1) =
      some (7, (((fun i => if i = 0 then (165 : Nat) else 66) (9 / 8)) >>>
        (9 % 8)) &&& 1) :=
  stimulus_bit_extraction ⟨12, 7, fun i => if i = 0 then 165 else 66⟩ 9
    (by norm_num [U32]) (by decide)

/-- C5: for every 1-based tick in the `uint32_t` range, the gate's
termination test (`ticks > sim_length` exits) and the stimulus/probe
termination test (decrement, then `0-based ≥ sim_length` exits) admit
exactly the same active ticks, namely `1 ≤ ticks ≤ sim_length`. -/
theorem tick_tests_equivalent (L : Nat) (cg : GateConfig)
    (cs : StimulusConfig) (s : GateState) (v : Nat) (recording : Nat → Nat)
    (ticks : Nat) (h1 : 1 ≤ ticks) (h2 : ticks ≤ U32)
    (hg : cg.sim_length = L) (hs : cs.sim_length = L) :
    ((gate_on_tick cg s ticks).isSome ↔ ticks ≤ L) ∧
    ((stimulus_on_tick cs ticks).isSome ↔ ticks ≤ L) ∧
    ((probe_on_tick L v recording ticks).isSome ↔ ticks ≤ L) := by
  have hd : dec32 ticks = ticks - 1 := dec32_eq ticks h1 h2
  refine ⟨?_, ?_, ?_⟩
  · unfold gate_on_tick
    rw [hg]
    by_cases h : ticks > L
    · rw [if_pos h]
      simp
      omega
    · rw [if_neg h]
      simp
      omega
  · unfold stimulus_on_tick
    rw [hd, hs]
    by_cases h : ticks - 1 ≥ L
    · rw [if_pos h]
      simp
      omega
    · rw [if_neg h]
      simp
      omega
  · unfold probe_on_tick
    rw [hd]
    by_cases h : ticks - 1 ≥ L
    · rw [if_pos h]
      simp
      omega
    · rw [if_neg h]
      simp
      omega

/-- Witness for C5 at `sim_length = 5`, tick 5 (the last active tick). -/
theorem tick_tests_equivalent_witness :
    ((gate_on_tick ⟨5, 1, 2, 3, 8⟩ ⟨0, 0⟩ 5).isSome ↔ 5 ≤ 5) ∧
    ((stimulus_on_tick ⟨5, 7, fun _ => 0⟩ 5).isSome ↔ 5 ≤ 5) ∧
    ((probe_on_tick 5 0 (fun _ => 0) 5).isSome ↔ 5 ≤ 5) :=
  tick_tests_equivalent 5 ⟨5, 1, 2, 3, 8⟩ ⟨5, 7, fun _ => 0⟩ ⟨0, 0⟩ 0
    (fun _ => 0) 5 (by decide) (by norm_num [U32]) rfl rfl

/-- C6: a packet whose key matches none of the configured input keys leaves
the gate's stored inputs and the probe's `last_input` unchanged (and, the
handlers being pure state updates, has no output or recording effect). -/
theorem unrecognized_key_noop (cg : GateConfig) (s : GateState)
    (input_key last_input key payload : Nat)
    (hga : key ≠ cg.input_a_key) (hgb : key ≠ cg.input_b_key)
    (hpk : key ≠ input_key) :
    gate_on_mc_packet cg s key payload = s ∧
    probe_on_mc_packet input_key last_input key payload = last_input := by
  constructor
  · unfold gate_on_mc_packet
    rw [if_neg hga, if_neg hgb]
  · unfold probe_on_mc_packet
    rw [if_neg hpk]

/-- Witness for C6: key 9 matches neither gate key 1/2 nor probe key 4. -/
theorem unrecognized_key_noop_witness :
    gate_on_mc_packet ⟨5, 1, 2, 3, 8⟩ ⟨0, 1⟩ 9 1 = ⟨0, 1⟩ ∧
    probe_on_mc_packet 4 0 9 1 = 0 :=
  unrecognized_key_noop ⟨5, 1, 2, 3, 8⟩ ⟨0, 1⟩ 4 0 9 1 (by decide) (by decide)
    (by decide)

/-- C8: when `input_a_key = input_b_key`, a single packet on that key passes
both (non-exclusive) comparisons of `on_mc_packet` and updates both stored
inputs to the payload. -/
theorem duplicate_key_updates_both (cg : GateConfig) (s : GateState)
    (payload : Nat) (hdup : cg.input_a_key = cg.input_b_key) :
    gate_on_mc_packet cg s cg.input_a_key payload = ⟨payload, payload⟩ := by
  unfold gate_on_mc_packet
  rw [if_pos rfl, if_pos hdup]

/-- Witness for C8: both keys equal 6; one packet sets both inputs to 1. -/
theorem duplicate_key_updates_both_witness :
    gate_on_mc_packet ⟨5, 6, 6, 3, 8⟩ ⟨0, 0⟩ 6 1 = ⟨1, 1⟩ :=
  duplicate_key_updates_both ⟨5, 6, 6, 3, 8⟩ ⟨0, 0⟩ 1 rfl

/-- Length of a fuel-bounded run of a handler that is active exactly on
ticks `1 .. L` and exits at tick `L + 1`. -/
theorem runEmit_length {α : Type} (handler : Nat → Option α) (L : Nat)
    (hsome : ∀ t, 1 ≤ t → t ≤ L → (handler t).isSome)
    (hnone : handler (L + 1) = none) :
    ∀ fuel tick, 1 ≤ tick → tick ≤ L + 1 → L + 1 - tick < fuel →
      (runEmit handler tick fuel).length = L + 1 - tick := by
  intro fuel
  induction fuel with
  | zero =>
    intro tick h1 h2 h3
    omega
  | succ f ih =>
    intro tick h1 h2 h3
    by_cases hle : tick ≤ L
    · obtain ⟨a, ha⟩ := Option.isSome_iff_exists.mp (hsome tick h1 hle)
      simp only [runEmit, ha, List.length_cons]
      rw [ih (tick + 1) (by omega) (by omega) (by omega)]
      omega
    · have htick : tick = L + 1 := by omega
      subst htick
      simp only [runEmit, hnone, List.length_nil]
      omega

/-- Number of recording writes of a fuel-bounded probe run starting at any
1-based tick, when the fuel is enough to reach the exit tick. -/
theorem probeRun_count (L : Nat) (hL : L < U32) (lastIn : Nat → Nat) :
    ∀ fuel tick recording, 1 ≤ tick → tick ≤ L + 1 → L + 1 - tick < fuel →
      (probeRun L lastIn tick fuel recording).2 = L + 1 - tick := by
  intro fuel
  induction fuel with
  | zero =>
    intro tick recording h1 h2 h3
    omega
  | succ f ih =>
    intro tick recording h1 h2 h3
    have hd : dec32 tick = tick - 1 := dec32_eq tick h1 (by omega)
    by_cases hle : tick ≤ L
    · have hstep : probe_on_tick L (lastIn tick) recording tick =
          some (probeWrite (lastIn tick) recording (tick - 1)) := by
        unfold probe_on_tick
        rw [hd, if_neg (by omega)]
      simp only [probeRun, hstep]
      rw [ih (tick + 1) _ (by omega) (by omega) (by omega)]
      omega
    · have htick : tick = L + 1 := by omega
      subst htick
      have hstep : probe_on_tick L (lastIn (L + 1)) recording (L + 1) = none := by
        unfold probe_on_tick
        rw [hd, if_pos (by omega)]
      simp only [probeRun, hstep]
      omega

/-- C2: driven by 1-based ticks 1, 2, 3, ..., with any fuel past the exit
tick, the gate publishes exactly `sim_length` packets, the stimulus publishes
exactly `sim_length` packets, and the probe performs exactly `sim_length`
recording writes; all further ticks are inactive (in particular
`sim_length = 0` gives zero activity). -/
theorem exact_tick_counts (L fuel : Nat) (hL : L < U32)
    (cg : GateConfig) (cs : StimulusConfig) (env : Nat → GateState)
    (lastIn : Nat → Nat) (recording : Nat → Nat)
    (hg : cg.sim_length = L) (hs : cs.sim_length = L) (hfuel : L < fuel) :
    (runEmit (fun t => gate_on_tick cg (env t) t) 1 fuel).length = L ∧
    (runEmit (fun t => stimulus_on_tick cs t) 1 fuel).length = L ∧
    (probeRun L lastIn 1 fuel recording).2 = L := by
  refine ⟨?_, ?_, ?_⟩
  · have h := runEmit_length (fun t => gate_on_tick cg (env t) t) L
      (fun t h1 h2 => by
        show (gate_on_tick cg (env t) t).isSome = true
        unfold gate_on_tick
        rw [hg, if_neg (by omega)]
        rfl)
      (by
        show gate_on_tick cg (env (L + 1)) (L + 1) = none
        unfold gate_on_tick
        rw [hg, if_pos (by omega)])
      fuel 1 (by omega) (by omega) (by omega)
    simpa using h
  · have h := runEmit_length (fun t => stimulus_on_tick cs t) L
      (fun t h1 h2 => by
        show (stimulus_on_tick cs t).isSome = true
        unfold stimulus_on_tick
        rw [dec32_eq t h1 (by omega), hs, if_neg (by omega)]
        rfl)
      (by
        show stimulus_on_tick cs (L + 1) = none
        unfold stimulus_on_tick
        rw [dec32_eq (L + 1) (by omega) (by omega), hs, if_pos (by omega)])
      fuel 1 (by omega) (by omega) (by omega)
    simpa using h
  · have h := probeRun_count L hL lastIn fuel 1 recording (by omega) (by omega)
      (by omega)
    simpa using h

/-- Witness for C2 at `sim_length = 3` with fuel 5. -/
theorem exact_tick_counts_witness :
    (runEmit (fun t => gate_on_tick ⟨3, 1, 2, 5, 8⟩ ((fun _ => (⟨0, 0⟩ : GateState)) t) t) 1 5).length = 3 ∧
    (runEmit (fun t => stimulus_on_tick ⟨3, 7, fun _ => 0⟩ t) 1 5).length = 3 ∧
    (probeRun 3 (fun _ => 1) 1 5 (fun _ => 0)).2 = 3 :=
  exact_tick_counts 3 5 (by norm_num [U32]) ⟨3, 1, 2, 5, 8⟩ ⟨3, 7, fun _ => 0⟩
    (fun _ => ⟨0, 0⟩) (fun _ => 1) (fun _ => 0) rfl rfl (by decide)

/-- Unfolding: a probe run with no fuel leaves the recording unchanged. -/
theorem probeRun_zero (L : Nat) (lastIn : Nat → Nat) (tick : Nat)
    (recording : Nat → Nat) : probeRun L lastIn tick 0 recording = (recording, 0) :=
  rfl

/-- Unfolding: a probe run whose first tick exits changes nothing. -/
theorem probeRun_succ_none (L : Nat) (lastIn : Nat → Nat) (tick f : Nat)
    (recording : Nat → Nat)
    (h : probe_on_tick L (lastIn tick) recording tick = none) :
    probeRun L lastIn tick (f + 1) recording = (recording, 0) := by
  unfold probeRun
  rw [h]

/-- Unfolding: a probe run whose first tick writes continues from the
written recording with one more counted write. -/
theorem probeRun_succ_some (L : Nat) (lastIn : Nat → Nat) (tick f : Nat)
    (recording recording' : Nat → Nat)
    (h : probe_on_tick L (lastIn tick) recording tick = some recording') :
    probeRun L lastIn tick (f + 1) recording =
      ((probeRun L lastIn (tick + 1) f recording').1,
       (probeRun L lastIn (tick + 1) f recording').2 + 1) := by
  conv_lhs => unfold probeRun
  rw [h]

/-- A recording write leaves every byte other than `t0 / 8` unchanged. -/
theorem probeWrite_other (v : Nat) (recording : Nat → Nat) (t0 i : Nat)
    (hi : i ≠ t0 / 8) : (probeWrite v recording t0) i = recording i := by
  unfold probeWrite setByte
  rw [if_neg hi]

/-- A recording write keeps every byte below `2 ^ 8`. -/
theorem probeWrite_bound (v : Nat) (recording : Nat → Nat) (t0 i : Nat)
    (hb : recording i < 2 ^ 8) : (probeWrite v recording t0) i < 2 ^ 8 := by
  unfold probeWrite setByte
  by_cases hi : i = t0 / 8
  · rw [if_pos hi]
    exact Nat.mod_lt _ (by norm_num)
  · rw [if_neg hi]
    exact hb

/-- Bit-level description of the written byte when the stored value is a
bit: bit `t0 % 8` is ORed with the value, all other bits are kept. -/
theorem probeWrite_testBit (v : Nat) (recording : Nat → Nat) (t0 : Nat)
    (hv : v ≤ 1) (hb : recording (t0 / 8) < 2 ^ 8) (j : Nat) :
    ((probeWrite v recording t0) (t0 / 8)).testBit j =
      ((recording (t0 / 8)).testBit j ||
        (decide (t0 % 8 = j) && decide (v = 1))) := by
  unfold probeWrite setByte
  rw [if_pos rfl]
  interval_cases v
  · rw [Nat.zero_shiftLeft, Nat.zero_mod, Nat.or_zero, Nat.mod_eq_of_lt hb]
    simp
  · rw [Nat.one_shiftLeft]
    have hk : (2 : Nat) ^ (t0 % 8) < 2 ^ 8 :=
      Nat.pow_lt_pow_right (by norm_num) (Nat.mod_lt _ (by norm_num))
    have hU : (2 : Nat) ^ (t0 % 8) % U32 = 2 ^ (t0 % 8) :=
      Nat.mod_eq_of_lt (lt_trans hk (by norm_num [U32]))
    rw [hU, Nat.mod_eq_of_lt (Nat.or_lt_two_pow hb hk)]
    rw [Nat.testBit_or, Nat.testBit_two_pow]
    simp

/-- A recording write never clears a set bit (for any stored value, also
out-of-range ones). -/
theorem probeWrite_mono (v : Nat) (recording : Nat → Nat) (t0 i j : Nat)
    (hb : recording (t0 / 8) < 2 ^ 8) (h : (recording i).testBit j = true) :
    ((probeWrite v recording t0) i).testBit j = true := by
  unfold probeWrite setByte
  by_cases hi : i = t0 / 8
  · rw [if_pos hi]
    rw [← hi] at hb
    have hj : j < 8 := by
      by_contra hj
      push_neg at hj
      have hlt : recording i < 2 ^ j :=
        lt_of_lt_of_le hb (Nat.pow_le_pow_right (by norm_num) hj)
      rw [Nat.testBit_eq_false_of_lt hlt] at h
      exact Bool.false_ne_true h
    rw [Nat.testBit_mod_two_pow, Nat.testBit_or, ← hi]
    simp [hj, h]
  · rw [if_neg hi]
    exact h

/-- The recording bit of tick `t` after one write at 0-based tick `t0` with a
bit value: set exactly when it was already set or `t = t0` and the value
was 1. -/
theorem probeWrite_bitAt (v : Nat) (recording : Nat → Nat) (t0 : Nat)
    (hv : v ≤ 1) (hb : recording (t0 / 8) < 2 ^ 8) (t : Nat) :
    (bitAt (probeWrite v recording t0) t = true ↔
      (bitAt recording t = true ∨ (t = t0 ∧ v = 1))) := by
  by_cases hi : t / 8 = t0 / 8
  · unfold bitAt
    rw [hi, probeWrite_testBit v recording t0 hv hb, ← hi]
    simp only [Bool.or_eq_true, Bool.and_eq_true, decide_eq_true_eq]
    constructor
    · rintro (h | ⟨hm, hv1⟩)
      · exact Or.inl h
      · exact Or.inr ⟨by omega, hv1⟩
    · rintro (h | ⟨ht, hv1⟩)
      · exact Or.inl h
      · exact Or.inr ⟨by omega, hv1⟩
  · unfold bitAt
    rw [probeWrite_other v recording t0 (t / 8) hi]
    constructor
    · exact fun h => Or.inl h
    · rintro (h | ⟨ht, hv1⟩)
      · exact h
      · exact absurd (by rw [ht]) hi

/-- The c_main zero-fill loop clears every byte below its bound. -/
theorem zeroFill_eq_zero (recording : Nat → Nat) :
    ∀ n i, i < n → zeroFill recording n i = 0 := by
  intro n
  induction n with
  | zero =>
    intro i h
    omega
  | succ m ih =>
    intro i h
    unfold zeroFill setByte
    by_cases hi : i = m
    · rw [if_pos hi]
    · rw [if_neg hi]
      exact ih i (by omega)

/-- Recording bit of tick `t` after a fuel-bounded probe run from any
starting tick: set exactly when it was already set, or tick `t + 1` fired
during the run while `last_input` was 1. -/
theorem probeRun_bitAt (L : Nat) (hL : L < U32) (lastIn : Nat → Nat)
    (hv : ∀ k, lastIn k ≤ 1) :
    ∀ fuel tick recording, 1 ≤ tick → tick ≤ L + 1 →
      (∀ i, i * 8 < L → recording i < 2 ^ 8) →
      ∀ t, (bitAt (probeRun L lastIn tick fuel recording).1 t = true ↔
        (bitAt recording t = true ∨
          (tick - 1 ≤ t ∧ t < L ∧ t < tick - 1 + fuel ∧ lastIn (t + 1) = 1))) := by
  intro fuel
  induction fuel with
  | zero =>
    intro tick recording h1 h2 hrec t
    rw [probeRun_zero]
    constructor
    · exact fun h => Or.inl h
    · rintro (h | ⟨ha', hb', hc', hd'⟩)
      · exact h
      · omega
  | succ f ih =>
    intro tick recording h1 h2 hrec t
    have hd : dec32 tick = tick - 1 := dec32_eq tick h1 (by omega)
    by_cases hle : tick ≤ L
    · have hbyte : recording ((tick - 1) / 8) < 2 ^ 8 := hrec _ (by omega)
      have hstep : probe_on_tick L (lastIn tick) recording tick =
          some (probeWrite (lastIn tick) recording (tick - 1)) := by
        unfold probe_on_tick
        rw [hd, if_neg (by omega)]
      rw [probeRun_succ_some L lastIn tick f recording _ hstep]
      rw [ih (tick + 1) _ (by omega) (by omega)
        (fun i hi => probeWrite_bound _ _ _ _ (hrec i hi)) t]
      rw [probeWrite_bitAt (lastIn tick) recording (tick - 1) (hv tick) hbyte t]
      constructor
      · rintro ((hB | ⟨ht0, hv1⟩) | ⟨ha', hb', hc', hd'⟩)
        · exact Or.inl hB
        · refine Or.inr ⟨by omega, by omega, by omega, ?_⟩
          have he : t + 1 = tick := by omega
          rw [he]
          exact hv1
        · exact Or.inr ⟨by omega, hb', by omega, hd'⟩
      · rintro (hB | ⟨ha', hb', hc', hd'⟩)
        · exact Or.inl (Or.inl hB)
        · by_cases ht0 : t = tick - 1
          · refine Or.inl (Or.inr ⟨ht0, ?_⟩)
            have he : t + 1 = tick := by omega
            rw [← he]
            exact hd'
          · exact Or.inr ⟨by omega, hb', by omega, hd'⟩
    · have htick : tick = L + 1 := by omega
      subst htick
      have hstep : probe_on_tick L (lastIn (L + 1)) recording (L + 1) = none := by
        unfold probe_on_tick
        rw [hd, if_pos (by omega)]
      rw [probeRun_succ_none L lastIn (L + 1) f recording hstep]
      constructor
      · exact fun h => Or.inl h
      · rintro (h | ⟨ha', hb', hc', hd'⟩)
        · exact h
        · omega

/-- C4: after the startup zero-fill of `(sim_length + 7) / 8` recording
bytes, a full run in which `last_input` holds a bit value at each tick
leaves, for every 0-based tick `t < sim_length`, bit `t % 8` of byte
`t / 8` equal to the `last_input` value seen at that tick's write; bits of
ticks whose `last_input` never became 1 stay 0 thanks to the zero-fill. -/
theorem probe_recording_roundtrip (L fuel : Nat) (hL : L < U32)
    (hfuel : L ≤ fuel) (lastIn : Nat → Nat) (hv : ∀ k, lastIn k ≤ 1)
    (recording0 : Nat → Nat) :
    (∀ i, i < (L + 7) / 8 → zeroFill recording0 ((L + 7) / 8) i = 0) ∧
    (∀ t, t < L →
      (bitAt (probeRun L lastIn 1 fuel (zeroFill recording0 ((L + 7) / 8))).1 t
          = true ↔ lastIn (t + 1) = 1)) := by
  refine ⟨fun i hi => zeroFill_eq_zero recording0 _ i hi, fun t ht => ?_⟩
  rw [probeRun_bitAt L hL lastIn hv fuel 1 _ (by omega) (by omega)
    (fun i hi => by
      rw [zeroFill_eq_zero recording0 _ i (by omega)]
      norm_num) t]
  have hz : bitAt (zeroFill recording0 ((L + 7) / 8)) t = false := by
    unfold bitAt
    rw [zeroFill_eq_zero recording0 _ (t / 8) (by omega)]
    exact Nat.zero_testBit _
  rw [hz]
  constructor
  · rintro (h | ⟨_, _, _, h⟩)
    · exact absurd h (by simp)
    · exact h
  · intro h
    exact Or.inr ⟨by omega, ht, by omega, h⟩

/-- Witness for C4 at `sim_length = 2` with `last_input` constantly 1:
byte 0 is zero-filled, and tick bit 1 reads back the stored 1. -/
theorem probe_recording_roundtrip_witness :
    zeroFill (fun _ => 0) ((2 + 7) / 8) 0 = 0 ∧
    (bitAt (probeRun 2 (fun _ => 1) 1 2 (zeroFill (fun _ => 0) ((2 + 7) / 8))).1 1
        = true ↔ (1 : Nat) = 1) :=
  ⟨(probe_recording_roundtrip 2 2 (by norm_num [U32]) (by omega) (fun _ => 1)
      (fun _ => le_refl 1) (fun _ => 0)).1 0 (by decide),
   (probe_recording_roundtrip 2 2 (by norm_num [U32]) (by omega) (fun _ => 1)
      (fun _ => le_refl 1) (fun _ => 0)).2 1 (by decide)⟩

/-- C9: on an active tick with a bit-valued `last_input` and an in-range
recording byte, the probe's write modifies at most bit `t % 8` of byte
`t / 8` (0-based tick `t = ticks - 1`): every other byte and every other bit
of the written byte are unchanged.  The bit-valued hypothesis is needed: the
last conjunct shows a write of the out-of-range value 2 at 0-based tick 0
setting bit 1, which belongs to tick 1. -/
theorem probe_write_frame (L v : Nat) (recording : Nat → Nat) (ticks : Nat)
    (h1 : 1 ≤ ticks) (h2 : ticks ≤ U32) (ht : ticks - 1 < L) (hv : v ≤ 1)
    (hb : recording ((ticks - 1) / 8) < 2 ^ 8) :
    probe_on_tick L v recording ticks =
      some (probeWrite v recording (ticks - 1)) ∧
    (∀ i, i ≠ (ticks - 1) / 8 →
      probeWrite v recording (ticks - 1) i = recording i) ∧
    (∀ j, j ≠ (ticks - 1) % 8 →
      (probeWrite v recording (ticks - 1) ((ticks - 1) / 8)).testBit j =
        (recording ((ticks - 1) / 8)).testBit j) ∧
    (probeWrite 2 (fun _ => 0) 0 0).testBit 1 = true := by
  refine ⟨?_, ?_, ?_, ?_⟩
  · unfold probe_on_tick
    rw [dec32_eq ticks h1 h2, if_neg (by omega)]
  · intro i hi
    exact probeWrite_other v recording (ticks - 1) i hi
  · intro j hj
    rw [probeWrite_testBit v recording (ticks - 1) hv hb j]
    simp [Ne.symm hj]
  · decide

/-- Witness for C9 at tick 3 (0-based tick 2) on all-zero memory: byte 1 and
bit 5 of byte 0 are untouched, while an out-of-range value 2 leaks into
another tick's bit. -/
theorem probe_write_frame_witness :
    probe_on_tick 8 1 (fun _ => 0) 3 = some (probeWrite 1 (fun _ => 0) 2) ∧
    probeWrite 1 (fun _ => 0) 2 1 = 0 ∧
    (probeWrite 1 (fun _ => 0) 2 0).testBit 5 = (0 : Nat).testBit 5 ∧
    (probeWrite 2 (fun _ => 0) 0 0).testBit 1 = true :=
  ⟨(probe_write_frame 8 1 (fun _ => 0) 3 (by decide) (by norm_num [U32])
      (by decide) (by decide) (by decide)).1,
   (probe_write_frame 8 1 (fun _ => 0) 3 (by decide) (by norm_num [U32])
      (by decide) (by decide) (by decide)).2.1 1 (by decide),
   (probe_write_frame 8 1 (fun _ => 0) 3 (by decide) (by norm_num [U32])
      (by decide) (by decide) (by decide)).2.2.1 5 (by decide),
   (probe_write_frame 8 1 (fun _ => 0) 3 (by decide) (by norm_num [U32])
      (by decide) (by decide) (by decide)).2.2.2⟩

/-- C10: over any continuation of a probe run whose recording bytes are in
byte range, recording bits are monotone: a bit that is set stays set, for
arbitrary (even out-of-range) `last_input` values, because every write only
ORs into its byte. -/
theorem probe_recording_monotone (L : Nat) (lastIn : Nat → Nat) :
    ∀ fuel tick recording, (∀ i, recording i < 2 ^ 8) →
      ∀ i j, (recording i).testBit j = true →
        ((probeRun L lastIn tick fuel recording).1 i).testBit j = true := by
  intro fuel
  induction fuel with
  | zero =>
    intro tick recording hrec i j h
    rw [probeRun_zero]
    exact h
  | succ f ih =>
    intro tick recording hrec i j h
    cases hstep : probe_on_tick L (lastIn tick) recording tick with
    | none =>
      rw [probeRun_succ_none L lastIn tick f recording hstep]
      exact h
    | some recording' =>
      rw [probeRun_succ_some L lastIn tick f recording recording' hstep]
      have he : recording' = probeWrite (lastIn tick) recording (dec32 tick) := by
        simp only [probe_on_tick] at hstep
        split at hstep
        · simp at hstep
        · exact (Option.some_inj.mp hstep).symm
      subst he
      exact ih (tick + 1) _
        (fun i' => probeWrite_bound _ _ _ _ (hrec i')) i j
        (probeWrite_mono _ _ _ i j (hrec _) h)

/-- Witness for C10: bit 0 of byte 0, set before a 2-tick run, is still set
afterwards. -/
theorem probe_recording_monotone_witness :
    (((probeRun 4 (fun _ => 0) 1 2 (fun _ => 1)).1 0).testBit 0) = true :=
  probe_recording_monotone 4 (fun _ => 0) 2 1 (fun _ => 1)
    (fun _ => by norm_num) 0 0 (by decide)

/-- Gate state trajectory under the AND-gate scenario schedule:
(0,0) before tick 3, (1,0) from tick 3, (1,1) from tick 5 on. -/
theorem stateAtTick_scenario (cg : GateConfig)
    (hka : cg.input_a_key ≠ cg.input_b_key) :
    ∀ t, stateAtTick cg (andScenarioEvents cg.input_a_key cg.input_b_key) t =
      if t < 3 then ⟨0, 0⟩ else if t < 5 then ⟨1, 0⟩ else ⟨1, 1⟩ := by
  intro t
  induction t with
  | zero => rfl
  | succ n ih =>
    have hstep :
        stateAtTick cg (andScenarioEvents cg.input_a_key cg.input_b_key) (n + 1) =
          deliverAll cg
            (stateAtTick cg (andScenarioEvents cg.input_a_key cg.input_b_key) n)
            (andScenarioEvents cg.input_a_key cg.input_b_key (n + 1)) := rfl
    rw [hstep, ih]
    by_cases h3 : n + 1 = 3
    · have hn : n = 2 := by omega
      subst hn
      simp [andScenarioEvents, deliverAll, gate_on_mc_packet, hka]
    · by_cases h5 : n + 1 = 5
      · have hn : n = 4 := by omega
        subst hn
        simp [andScenarioEvents, deliverAll, gate_on_mc_packet, hka,
          Ne.symm hka]
      · have hevs :
            andScenarioEvents cg.input_a_key cg.input_b_key (n + 1) = [] := by
          unfold andScenarioEvents
          rw [if_neg h3, if_neg h5]
        rw [hevs]
        simp only [deliverAll, List.foldl_nil]
        split_ifs
        all_goals first | rfl | omega

/-- C7: a gate with `lut = 0b1000` (AND) and distinct input keys, fed the
scenario schedule (input a goes 1 at tick 3, input b goes 1 at tick 5),
publishes 0 on every active tick on which its stored inputs are not both 1
and publishes 1 on every active tick from tick 5 on. -/
theorem and_gate_scenario (cg : GateConfig) (t : Nat)
    (hlut : cg.lut = 8) (hka : cg.input_a_key ≠ cg.input_b_key)
    (h1 : 1 ≤ t) (h2 : t ≤ cg.sim_length) :
    (¬((stateAtTick cg (andScenarioEvents cg.input_a_key cg.input_b_key) t).last_input_a = 1 ∧
       (stateAtTick cg (andScenarioEvents cg.input_a_key cg.input_b_key) t).last_input_b = 1) →
      gate_on_tick cg
        (stateAtTick cg (andScenarioEvents cg.input_a_key cg.input_b_key) t) t =
        some (cg.output_key, 0)) ∧
    (5 ≤ t →
      gate_on_tick cg
        (stateAtTick cg (andScenarioEvents cg.input_a_key cg.input_b_key) t) t =
        some (cg.output_key, 1)) := by
  rw [stateAtTick_scenario cg hka t]
  constructor
  · intro hnot
    by_cases h3 : t < 3
    · rw [if_pos h3]
      unfold gate_on_tick
      rw [if_neg (by omega), hlut]
      rfl
    · rw [if_neg h3]
      by_cases h5 : t < 5
      · rw [if_pos h5]
        unfold gate_on_tick
        rw [if_neg (by omega), hlut]
        rfl
      · rw [if_neg h3, if_neg h5] at hnot
        exact absurd ⟨rfl, rfl⟩ hnot
  · intro h5
    rw [if_neg (by omega), if_neg (by omega)]
    unfold gate_on_tick
    rw [if_neg (by omega), hlut]
    rfl

/-- Witness for C7 at `sim_length = 6`, keys 1/2, output key 12: the output
is 0 at tick 2 (inputs still (0,0)) and 1 at tick 5 (inputs (1,1)). -/
theorem and_gate_scenario_witness :
    gate_on_tick ⟨6, 1, 2, 12, 8⟩
        (stateAtTick ⟨6, 1, 2, 12, 8⟩ (andScenarioEvents 1 2) 2) 2 =
      some (12, 0) ∧
    gate_on_tick ⟨6, 1, 2, 12, 8⟩
        (stateAtTick ⟨6, 1, 2, 12, 8⟩ (andScenarioEvents 1 2) 5) 5 =
      some (12, 1) :=
  ⟨(and_gate_scenario ⟨6, 1, 2, 12, 8⟩ 2 rfl (by decide) (by decide)
      (by decide)).1 (by decide),
   (and_gate_scenario ⟨6, 1, 2, 12, 8⟩ 5 rfl (by decide) (by decide)
      (by decide)).2 (by decide)⟩
